import Mathlib

set_option maxRecDepth 16000

/-!
Verification of the PR aggregation, classification and caching engine of the
atulify-organizer repository (src/src-tauri/src/commands/mod.rs,
src/src-tauri/src/models/mod.rs), as a shallow embedding in Lean 4.

Machine strings are embedded as Lean `String`; the case-insensitive
comparisons of the Rust code (`to_lowercase()`), which must be computable in
the kernel, are carried out on the underlying character lists.  Stateful and
effectful code (subprocess invocation, the process-wide cache, monotonic
clocks) is embedded by explicit state passing: each external call site takes
the outcome of that call as an explicit parameter, and `Instant` values are
natural numbers of nanoseconds.
-/

/- ============ Data model (models/mod.rs) ============ -/

/-- Rust struct `PrApproval` (models/mod.rs). -/
structure PrApproval where
  username : String
  approved_at : String
deriving DecidableEq, Repr

/-- Rust struct `GhPrSearchItem` (commands/mod.rs): one result row of a
`gh search prs` call.  The nested `author: GhPrAuthor` is flattened to its
single `login` field. -/
structure GhPrSearchItem where
  number : Nat
  title : String
  url : String
  author : String
  created_at : String
deriving DecidableEq, Repr

/-- Rust struct `GitHubPr` (models/mod.rs). -/
structure GitHubPr where
  number : Nat
  title : String
  url : String
  author : String
  created_at : String
  approvals : List PrApproval
  requested_reviewers : List String
deriving DecidableEq, Repr

/-- Constant `USER` (commands/mod.rs line 300). -/
def USER : String := "atulify"

/-- Constant `REPO` (commands/mod.rs line 299). -/
def REPO : String := "shop/world"

/-- Constant `TEAM_SLUG` (commands/mod.rs line 301). -/
def TEAM_SLUG : String := "shop/delivery_predictions_platform"

/-- Model of Rust `s.to_lowercase()` for comparison purposes: the character
list of the string, lowercased character by character. -/
def lowered (s : String) : List Char := s.data.map Char.toLower

/-- Rust fn `to_github_pr` (commands/mod.rs lines 490-500). -/
def to_github_pr (item : GhPrSearchItem) (approvals : List PrApproval)
    (requested_reviewers : List String) : GitHubPr :=
  { number := item.number
    title := item.title
    url := item.url
    author := item.author
    created_at := item.created_at
    approvals := approvals
    requested_reviewers := requested_reviewers }

/- ============ PR cache (commands/mod.rs lines 51-89) ============ -/

/-- Constant `CACHE_TTL_SECS` (commands/mod.rs line 53). -/
def CACHE_TTL_SECS : Nat := 600

/-- Nanoseconds per second; `Instant` is modelled as a nanosecond count, so
`Duration::from_secs(CACHE_TTL_SECS)` is `CACHE_TTL_SECS * NANOS_PER_SEC`. -/
def NANOS_PER_SEC : Nat := 1000000000

/-- Rust struct `CachedPrData`; `cached_at : Instant` becomes nanoseconds. -/
structure CachedPrData where
  prs : List GitHubPr
  cached_at : Nat
deriving DecidableEq, Repr

/-- Rust struct `PrCache`: one slot per category. -/
structure PrCache where
  high_priority : Option CachedPrData
  medium_priority : Option CachedPrData
  low_priority : Option CachedPrData
  my_approved : Option CachedPrData
  my_changes_requested : Option CachedPrData
  my_needs_review : Option CachedPrData
deriving DecidableEq, Repr

/-- Rust fn `PrCache::new` (commands/mod.rs lines 71-80). -/
def PrCache.new : PrCache :=
  { high_priority := none
    medium_priority := none
    low_priority := none
    my_approved := none
    my_changes_requested := none
    my_needs_review := none }

/-- Rust fn `PrCache::is_valid` (commands/mod.rs lines 82-87):
`cached.as_ref().map(|c| c.cached_at.elapsed() < Duration::from_secs(CACHE_TTL_SECS)).unwrap_or(false)`
with `c.cached_at.elapsed()` rendered as `now - c.cached_at`. -/
def PrCache.is_valid (cached : Option CachedPrData) (now : Nat) : Bool :=
  (cached.map (fun c => decide (now - c.cached_at < CACHE_TTL_SECS * NANOS_PER_SEC))).getD false

/-- The cache-check / fetch / cache-write skeleton shared by all six category
fetch commands (e.g. `fetch_high_priority_prs`, commands/mod.rs lines
528-601): if the force flag is not set and the slot is valid, return the
cached PRs (the code's `.unwrap().prs.clone()`, rendered as `getD []`, is
only reached when the slot is `some`); otherwise run the fetch body, and on
success overwrite the slot with the new result stamped at the write time.
The third component records whether the fetch body (external tool work) ran. -/
def fetch_category_flow (force_refresh : Option Bool) (now : Nat)
    (slot : Option CachedPrData) (fetch_result : Except String (List GitHubPr))
    (write_time : Nat) :
    Except String (List GitHubPr) × Option CachedPrData × Bool :=
  if !(force_refresh.getD false) && PrCache.is_valid slot now then
    (.ok ((slot.map CachedPrData.prs).getD []), slot, false)
  else
    match fetch_result with
    | .error e => (.error e, slot, true)
    | .ok result => (.ok result, some ⟨result, write_time⟩, true)

/-- Rust fn `invalidate_pr_cache` (commands/mod.rs lines 503-524): the match
on `category.as_deref()` clears the named slot for the six recognized names
and clears every slot in the `_` arm (which receives both `None` and any
unrecognized name); it always returns `Ok(())`. -/
def invalidate_pr_cache (category : Option String) (cache : PrCache) :
    PrCache × Except String Unit :=
  let cache' :=
    match category with
    | some s =>
      if s = "high" then { cache with high_priority := none }
      else if s = "medium" then { cache with medium_priority := none }
      else if s = "low" then { cache with low_priority := none }
      else if s = "approved" then { cache with my_approved := none }
      else if s = "changes_requested" then { cache with my_changes_requested := none }
      else if s = "needs_review" then { cache with my_needs_review := none }
      else PrCache.new
    | none => PrCache.new
  (cache', .ok ())

/- ============ Theorems for C3 and C10 ============ -/

/-- Claim C3: a cached slot is valid iff the elapsed time since its
population is strictly below 600 seconds (an empty slot is never valid); a
non-forced fetch inside that window returns the cached result set unchanged
without running the fetch body; a forced fetch skips the validity check but
still overwrites the slot with the new result and the new population
timestamp. -/
theorem C3_cache_ttl :
    (∀ (c : CachedPrData) (now : Nat), c.cached_at ≤ now →
      (PrCache.is_valid (some c) now = true ↔
        now - c.cached_at < CACHE_TTL_SECS * NANOS_PER_SEC)) ∧
    (∀ now : Nat, PrCache.is_valid none now = false) ∧
    (∀ (fr : Option Bool) (now : Nat) (c : CachedPrData)
        (fetch_result : Except String (List GitHubPr)) (wt : Nat),
      fr.getD false = false → PrCache.is_valid (some c) now = true →
      fetch_category_flow fr now (some c) fetch_result wt = (.ok c.prs, some c, false)) ∧
    (∀ (now : Nat) (slot : Option CachedPrData) (res : List GitHubPr) (wt : Nat),
      fetch_category_flow (some true) now slot (.ok res) wt =
        (.ok res, some ⟨res, wt⟩, true)) := by
  refine ⟨?_, ?_, ?_, ?_⟩
  · intro c now _
    simp [PrCache.is_valid]
  · intro now
    simp [PrCache.is_valid]
  · intro fr now c fetch_result wt h1 h2
    simp [fetch_category_flow, h1, h2]
  · intro now slot res wt
    simp [fetch_category_flow]

/-- Witness for C3 at concrete inputs. -/
theorem C3_cache_ttl_witness :
    ((3 : Nat) ≤ 5 ∧
      (PrCache.is_valid (some ⟨[], 3⟩) 5 = true ↔
        5 - 3 < CACHE_TTL_SECS * NANOS_PER_SEC)) ∧
    fetch_category_flow none 5 (some ⟨[], 3⟩) (.error "boom") 9 =
      (.ok ([] : List GitHubPr), some ⟨[], 3⟩, false) :=
  ⟨⟨by decide, C3_cache_ttl.1 ⟨[], 3⟩ 5 (by decide)⟩,
    C3_cache_ttl.2.2.1 none 5 ⟨[], 3⟩ (.error "boom") 9 (by decide) (by decide)⟩

/-- Claim C10: invalidating with one of the six recognized category names
clears exactly that slot (the record update leaves the other five fields
unchanged); invalidating with no category or an unrecognized name clears all
six slots; the operation always returns `Ok(())`. -/
theorem C10_invalidate :
    (∀ c : PrCache,
      invalidate_pr_cache (some "high") c = ({ c with high_priority := none }, .ok ()) ∧
      invalidate_pr_cache (some "medium") c = ({ c with medium_priority := none }, .ok ()) ∧
      invalidate_pr_cache (some "low") c = ({ c with low_priority := none }, .ok ()) ∧
      invalidate_pr_cache (some "approved") c = ({ c with my_approved := none }, .ok ()) ∧
      invalidate_pr_cache (some "changes_requested") c =
        ({ c with my_changes_requested := none }, .ok ()) ∧
      invalidate_pr_cache (some "needs_review") c =
        ({ c with my_needs_review := none }, .ok ())) ∧
    (∀ (c : PrCache) (s : String),
      s ≠ "high" → s ≠ "medium" → s ≠ "low" → s ≠ "approved" →
      s ≠ "changes_requested" → s ≠ "needs_review" →
      invalidate_pr_cache (some s) c = (PrCache.new, .ok ())) ∧
    (∀ c : PrCache, invalidate_pr_cache none c = (PrCache.new, .ok ())) := by
  refine ⟨?_, ?_, ?_⟩
  · intro c
    refine ⟨rfl, ?_, ?_, ?_, ?_, ?_⟩ <;> simp [invalidate_pr_cache]
  · intro c s h1 h2 h3 h4 h5 h6
    simp [invalidate_pr_cache, h1, h2, h3, h4, h5, h6]
  · intro c
    rfl

/-- Witness for C10 at concrete inputs. -/
theorem C10_invalidate_witness :
    invalidate_pr_cache (some "high") PrCache.new =
      ({ PrCache.new with high_priority := none }, .ok ()) ∧
    (("bogus" : String) ≠ "high" ∧
      invalidate_pr_cache (some "bogus") PrCache.new = (PrCache.new, .ok ())) :=
  ⟨(C10_invalidate.1 PrCache.new).1,
    by decide,
    C10_invalidate.2.1 PrCache.new "bogus" (by decide) (by decide) (by decide)
      (by decide) (by decide) (by decide)⟩

/- ============ Stats date arithmetic (commands/mod.rs lines 1000-1022) ============ -/

/-- A calendar date, modelling `chrono::NaiveDate` (year/month/day). -/
structure Date where
  year : Int
  month : Nat
  day : Nat
deriving DecidableEq, Repr

/-- Proleptic-Gregorian leap-year rule, as used by chrono. -/
def isLeapYear (y : Int) : Bool :=
  y % 4 == 0 && (y % 100 != 0 || y % 400 == 0)

/-- Length of month `m` of year `y` in the Gregorian calendar. -/
def days_in_month (y : Int) (m : Nat) : Nat :=
  match m with
  | 1 => 31
  | 2 => if isLeapYear y then 29 else 28
  | 3 => 31
  | 4 => 30
  | 5 => 31
  | 6 => 30
  | 7 => 31
  | 8 => 31
  | 9 => 30
  | 10 => 31
  | 11 => 30
  | _ => 31

/-- One calendar day earlier, rolling over month and year boundaries. -/
def prevDay (d : Date) : Date :=
  if d.day > 1 then ⟨d.year, d.month, d.day - 1⟩
  else if d.month > 1 then ⟨d.year, d.month - 1, days_in_month d.year (d.month - 1)⟩
  else ⟨d.year - 1, 12, 31⟩

/-- Model of chrono's `date - Duration::days(n)` for `n ≥ 0`: `n` successive
calendar-day decrements. -/
def subDays (d : Date) (n : Nat) : Date := prevDay^[n] d

/-- Rust fn `get_date_ranges` (commands/mod.rs lines 1000-1022), with the
current date passed explicitly (the code reads `Local::now().date_naive()`)
and dates kept structured instead of `%Y-%m-%d`-formatted.  The five
components are, in order: first of the current month, first of the previous
month (January wraps to December of the previous year), previous month end
(`first_of_month - 1 day`), ninety days before today, and today. -/
def get_date_ranges (today : Date) : Date × Date × Date × Date × Date :=
  let first_of_month : Date := ⟨today.year, today.month, 1⟩
  let prev_month : Date :=
    if today.month = 1 then ⟨today.year - 1, 12, 1⟩
    else ⟨today.year, today.month - 1, 1⟩
  let prev_month_end := subDays first_of_month 1
  let three_months_ago := subDays today 90
  (first_of_month, prev_month, prev_month_end, three_months_ago, today)

/-- Claim C9 counterexample: at `today = 2024-03-15` the code's ninety-day
window start is `2023-12-16`, not the `2023-12-17` the claim asserts. -/
theorem C9_counterexample :
    (get_date_ranges ⟨2024, 3, 15⟩).2.2.2.1 = (⟨2023, 12, 16⟩ : Date) ∧
    (⟨2023, 12, 16⟩ : Date) ≠ (⟨2023, 12, 17⟩ : Date) := by
  constructor
  · decide
  · decide

/-- One day before the first of a month is the last day of the prior month,
wrapping January to December of the previous year. -/
theorem subDays_one_first (y : Int) (m : Nat) (h : 1 ≤ m) :
    subDays ⟨y, m, 1⟩ 1 =
      if m = 1 then ⟨y - 1, 12, 31⟩ else ⟨y, m - 1, days_in_month y (m - 1)⟩ := by
  rw [subDays, Function.iterate_one]
  by_cases hm : m = 1
  · simp [prevDay, hm]
  · have hgt : 1 < m := lt_of_le_of_ne h (Ne.symm hm)
    simp [prevDay, hm, hgt]

set_option maxHeartbeats 2000000 in
/-- Claim C9 as amended: `monthToDateStart` is the first day of the current
month; `previousMonthStart` is the first day of the prior calendar month with
January wrapping to December of the previous year; `previousMonthEnd` is
`monthToDateStart` minus one day, i.e. the last day of the prior month;
`ninetyDayStart` is today minus 90 days; and for `today = 2024-03-15` the
values are 2024-03-01, 2024-02-01, 2024-02-29 and 2023-12-16 (the claim's
2023-12-17 corrected to 2023-12-16). -/
theorem C9_date_ranges :
    (∀ today : Date, 1 ≤ today.month → today.month ≤ 12 →
      get_date_ranges today =
        (⟨today.year, today.month, 1⟩,
         (if today.month = 1 then ⟨today.year - 1, 12, 1⟩
          else ⟨today.year, today.month - 1, 1⟩),
         (if today.month = 1 then ⟨today.year - 1, 12, 31⟩
          else ⟨today.year, today.month - 1, days_in_month today.year (today.month - 1)⟩),
         subDays today 90,
         today)) ∧
    get_date_ranges ⟨2024, 3, 15⟩ =
      (⟨2024, 3, 1⟩, ⟨2024, 2, 1⟩, ⟨2024, 2, 29⟩, ⟨2023, 12, 16⟩, ⟨2024, 3, 15⟩) := by
  constructor
  · intro today h1 h2
    rw [get_date_ranges, subDays_one_first today.year today.month h1]
  · decide

/-- Witness for C9 at a concrete date. -/
theorem C9_date_ranges_witness :
    1 ≤ (7 : Nat) ∧
    get_date_ranges ⟨2025, 7, 4⟩ =
      (⟨2025, 7, 1⟩, ⟨2025, 6, 1⟩, ⟨2025, 6, days_in_month 2025 6⟩,
        subDays ⟨2025, 7, 4⟩ 90, ⟨2025, 7, 4⟩) :=
  ⟨by decide, (C9_date_ranges.1 ⟨2025, 7, 4⟩ (by decide) (by decide)).trans (by decide)⟩

/- ============ Review responses and approval deduplication ============ -/

/-- Rust struct `GhReviewResponse` (commands/mod.rs lines 98-103), the row
type of the single-item reviews endpoint; the nested `user: GhReviewUser` is
flattened to its single `login` field. -/
structure GhReviewResponse where
  state : String
  user : Option String
  submitted_at : Option String
deriving DecidableEq, Repr

/-- Rust struct `GraphQlReviewNode` (commands/mod.rs lines 351-357); the
nested `author: GraphQlAuthor` is flattened to its `login` field. -/
structure GraphQlReviewNode where
  state : String
  author : Option String
  submittedAt : Option String
deriving DecidableEq, Repr

/-- Model of `HashMap::insert` on an association list: if the key is already
present its value is overwritten in place, otherwise the pair is appended. -/
def approvalInsert (m : List (String × PrApproval)) (k : String) (v : PrApproval) :
    List (String × PrApproval) :=
  if m.any (fun p => p.1 == k) then
    m.map (fun p => if p.1 == k then (k, v) else p)
  else m ++ [(k, v)]

/-- Model of `HashMap::get` on the association list. -/
def lookupApproval (m : List (String × PrApproval)) (k : String) : Option PrApproval :=
  (m.find? (fun p => p.1 == k)).map Prod.snd

/-- The approvals-map loop of `batch_fetch_pr_details` (commands/mod.rs lines
441-456): fold the review nodes left to right, inserting
`(login, PrApproval login submittedAt)` for each node whose state is
"APPROVED" and that carries both an author login and a submission time. -/
def approvalsOfGraphQl (nodes : List GraphQlReviewNode) : List (String × PrApproval) :=
  nodes.foldl
    (fun approvals_map review =>
      if review.state == "APPROVED" then
        match review.author, review.submittedAt with
        | some login, some sub => approvalInsert approvals_map login ⟨login, sub⟩
        | _, _ => approvals_map
      else approvals_map)
    []

/-- The approvals-map loop of `fetch_pr_info` (commands/mod.rs lines 157-172),
identical to the batch one but over `GhReviewResponse` rows. -/
def approvalsOfGh (reviews : List GhReviewResponse) : List (String × PrApproval) :=
  reviews.foldl
    (fun approvals_map review =>
      if review.state == "APPROVED" then
        match review.user, review.submitted_at with
        | some login, some sub => approvalInsert approvals_map login ⟨login, sub⟩
        | _, _ => approvals_map
      else approvals_map)
    []

/-- The approval a GraphQL review node contributes, if any: only "APPROVED"
nodes carrying both an author login and a submission time contribute. -/
def contribGraphQl (r : GraphQlReviewNode) : Option PrApproval :=
  if r.state == "APPROVED" then
    match r.author, r.submittedAt with
    | some login, some sub => some ⟨login, sub⟩
    | _, _ => none
  else none

/-- The approval a single-item review row contributes, if any. -/
def contribGh (r : GhReviewResponse) : Option PrApproval :=
  if r.state == "APPROVED" then
    match r.user, r.submitted_at with
    | some login, some sub => some ⟨login, sub⟩
    | _, _ => none
  else none

/-- Generic form of the two approval folds, over the contributed approvals. -/
def approvalsFold (l : List (Option PrApproval)) (m : List (String × PrApproval)) :
    List (String × PrApproval) :=
  l.foldl
    (fun acc o =>
      match o with
      | some a => approvalInsert acc a.username a
      | none => acc)
    m

/-- The last-parsed contributed approval for a username, in input order. -/
def lastApprovalOf (l : List (Option PrApproval)) (q : String) : Option PrApproval :=
  (l.filterMap id).reverse.find? (fun a => a.username == q)

theorem approvalsOfGraphQl_eq_fold (nodes : List GraphQlReviewNode) :
    approvalsOfGraphQl nodes = approvalsFold (nodes.map contribGraphQl) [] := by
  rw [approvalsOfGraphQl, approvalsFold, List.foldl_map]
  refine List.foldl_ext _ _ _ ?_
  intro acc r _
  rw [contribGraphQl]
  by_cases hs : r.state == "APPROVED"
  · simp only [hs, if_true]
    cases r.author <;> cases r.submittedAt <;> rfl
  · simp [hs]

theorem approvalsOfGh_eq_fold (reviews : List GhReviewResponse) :
    approvalsOfGh reviews = approvalsFold (reviews.map contribGh) [] := by
  rw [approvalsOfGh, approvalsFold, List.foldl_map]
  refine List.foldl_ext _ _ _ ?_
  intro acc r _
  rw [contribGh]
  by_cases hs : r.state == "APPROVED"
  · simp only [hs, if_true]
    cases r.user <;> cases r.submitted_at <;> rfl
  · simp [hs]

theorem keys_approvalInsert (m : List (String × PrApproval)) (k : String) (v : PrApproval) :
    (approvalInsert m k v).map Prod.fst =
      if m.any (fun p => p.1 == k) then m.map Prod.fst else m.map Prod.fst ++ [k] := by
  rw [approvalInsert]
  by_cases h : m.any (fun p => p.1 == k)
  · rw [if_pos h, if_pos h, List.map_map]
    refine List.map_congr_left ?_
    intro p _
    by_cases hp : p.1 == k
    · have hpk : p.1 = k := beq_iff_eq.mp hp
      simp [Function.comp, hp, hpk]
    · simp [Function.comp, hp]
  · rw [if_neg h, if_neg h, List.map_append]
    rfl

theorem nodup_keys_approvalInsert (m : List (String × PrApproval)) (k : String)
    (v : PrApproval) (h : (m.map Prod.fst).Nodup) :
    ((approvalInsert m k v).map Prod.fst).Nodup := by
  rw [keys_approvalInsert]
  by_cases hc : m.any (fun p => p.1 == k)
  · rwa [if_pos hc]
  · rw [if_neg hc]
    rw [(List.perm_append_singleton k (m.map Prod.fst)).nodup_iff]
    refine List.Nodup.cons ?_ h
    intro hk
    apply hc
    rw [List.any_eq_true]
    obtain ⟨p, hp, hpk⟩ := List.mem_map.mp hk
    exact ⟨p, hp, by simp [hpk]⟩

theorem lookup_approvalInsert (m : List (String × PrApproval)) (k : String)
    (v : PrApproval) (q : String) :
    lookupApproval (approvalInsert m k v) q =
      if k == q then some v else lookupApproval m q := by
  rw [approvalInsert, lookupApproval]
  by_cases h : m.any (fun p => p.1 == k)
  · rw [if_pos h, List.find?_map]
    by_cases hq : k = q
    · subst hq
      have hpred : ((fun p : String × PrApproval => p.1 == k) ∘
          (fun p : String × PrApproval => if p.1 == k then (k, v) else p)) =
          (fun p : String × PrApproval => p.1 == k) := by
        funext p
        by_cases hb : p.1 == k
        · have hpk : p.1 = k := beq_iff_eq.mp hb
          simp [hb, hpk]
        · have hpk : ¬p.1 = k := by simpa using hb
          simp [hb, hpk]
      rw [hpred]
      obtain ⟨p0, hp0m, hp0⟩ := List.any_eq_true.mp h
      obtain ⟨p1, hp1⟩ := Option.isSome_iff_exists.mp
        ((@List.find?_isSome (String × PrApproval) m (fun p => p.1 == k)).mpr ⟨p0, hp0m, hp0⟩)
      rw [hp1]
      have hp1b := List.find?_some hp1
      have hp1k : p1.1 = k := beq_iff_eq.mp hp1b
      simp [hp1k]
    · have hkq : (k == q) = false := beq_eq_false_iff_ne.mpr hq
      have hpred : ((fun p : String × PrApproval => p.1 == q) ∘
          (fun p : String × PrApproval => if p.1 == k then (k, v) else p)) =
          (fun p : String × PrApproval => p.1 == q) := by
        funext p
        by_cases hb : p.1 == k
        · have hpk : p.1 = k := beq_iff_eq.mp hb
          simp [hb, hpk, hkq, beq_eq_false_iff_ne.mp hkq]
        · have hpk : ¬p.1 = k := by simpa using hb
          simp [hpk]
      rw [hpred]
      cases hfind : m.find? (fun p : String × PrApproval => p.1 == q) with
      | none => simp [hkq, lookupApproval, hfind]
      | some p2 =>
        have hp2b := List.find?_some hfind
        have hp2q : p2.1 = q := beq_iff_eq.mp hp2b
        have hp2k : ¬p2.1 = k := by
          intro hh
          exact hq (by rw [← hh, hp2q])
        simp [hp2k, hkq, lookupApproval, hfind]
  · rw [if_neg h, List.find?_append]
    by_cases hq : k = q
    · subst hq
      have hnone : m.find? (fun p : String × PrApproval => p.1 == k) = none := by
        cases hfind : m.find? (fun p : String × PrApproval => p.1 == k) with
        | none => rfl
        | some p2 =>
          exact absurd (List.any_eq_true.mpr
            ⟨p2, List.mem_of_find?_eq_some hfind, List.find?_some hfind⟩) h
      simp [hnone, Option.or]
    · have hkq : (k == q) = false := beq_eq_false_iff_ne.mpr hq
      cases hfind : m.find? (fun p : String × PrApproval => p.1 == q) with
      | none => simp [hfind, Option.or, hkq, lookupApproval]
      | some p2 => simp [hfind, Option.or, hkq, lookupApproval]

theorem approvalsFold_nil (m : List (String × PrApproval)) : approvalsFold [] m = m := rfl

theorem approvalsFold_cons (o : Option PrApproval) (l : List (Option PrApproval))
    (m : List (String × PrApproval)) :
    approvalsFold (o :: l) m =
      approvalsFold l
        (match o with
         | some a => approvalInsert m a.username a
         | none => m) := rfl

theorem mem_approvalInsert (m : List (String × PrApproval)) (k : String) (v : PrApproval)
    (kv : String × PrApproval) (h : kv ∈ approvalInsert m k v) : kv = (k, v) ∨ kv ∈ m := by
  rw [approvalInsert] at h
  by_cases hc : m.any (fun p => p.1 == k)
  · rw [if_pos hc] at h
    obtain ⟨p, hpm, hpe⟩ := List.mem_map.mp h
    by_cases hb : p.1 == k
    · left
      rw [← hpe]
      simp [hb]
    · right
      rw [← hpe]
      simpa [hb] using hpm
  · rw [if_neg hc] at h
    rcases List.mem_append.mp h with h1 | h1
    · exact Or.inr h1
    · exact Or.inl (List.mem_singleton.mp h1)

theorem nodup_keys_approvalsFold :
    ∀ (l : List (Option PrApproval)) (m : List (String × PrApproval)),
      (m.map Prod.fst).Nodup → ((approvalsFold l m).map Prod.fst).Nodup := by
  intro l
  induction l with
  | nil => intro m hm; exact hm
  | cons o rest ih =>
    intro m hm
    rw [approvalsFold_cons]
    cases o with
    | none => exact ih m hm
    | some a => exact ih _ (nodup_keys_approvalInsert m a.username a hm)

theorem snd_username_approvalsFold :
    ∀ (l : List (Option PrApproval)) (m : List (String × PrApproval)),
      (∀ kv ∈ m, kv.2.username = kv.1) →
      ∀ kv ∈ approvalsFold l m, kv.2.username = kv.1 := by
  intro l
  induction l with
  | nil => intro m hm; exact hm
  | cons o rest ih =>
    intro m hm
    rw [approvalsFold_cons]
    cases o with
    | none => exact ih m hm
    | some a =>
      refine ih _ ?_
      intro kv hkv
      rcases mem_approvalInsert m a.username a kv hkv with h1 | h1
      · rw [h1]
      · exact hm kv h1

theorem lastApprovalOf_cons_none (l : List (Option PrApproval)) (q : String) :
    lastApprovalOf (none :: l) q = lastApprovalOf l q := by
  rw [lastApprovalOf, lastApprovalOf]
  rfl

theorem lastApprovalOf_cons_some (a : PrApproval) (l : List (Option PrApproval)) (q : String) :
    lastApprovalOf (some a :: l) q =
      (lastApprovalOf l q).or (if a.username == q then some a else none) := by
  rw [lastApprovalOf, lastApprovalOf]
  simp only [List.filterMap_cons, id]
  rw [List.reverse_cons, List.find?_append]
  congr 1
  by_cases hb : a.username == q
  · simp [hb]
  · simp [hb]

theorem lookup_approvalsFold :
    ∀ (l : List (Option PrApproval)) (m : List (String × PrApproval)) (q : String),
      lookupApproval (approvalsFold l m) q =
        (lastApprovalOf l q).or (lookupApproval m q) := by
  intro l
  induction l with
  | nil =>
    intro m q
    rw [approvalsFold_nil]
    simp [lastApprovalOf]
  | cons o rest ih =>
    intro m q
    rw [approvalsFold_cons]
    cases o with
    | none =>
      rw [lastApprovalOf_cons_none]
      exact ih m q
    | some a =>
      rw [lastApprovalOf_cons_some, ih, lookup_approvalInsert, Option.or_assoc]
      congr 1
      by_cases hb : a.username == q
      · simp [hb]
      · simp [hb]

theorem approvalsFold_spec (l : List (Option PrApproval)) :
    (((approvalsFold l []).map Prod.snd).map PrApproval.username).Nodup ∧
    ∀ q, lookupApproval (approvalsFold l []) q = lastApprovalOf l q := by
  constructor
  · have h1 : ((approvalsFold l []).map Prod.snd).map PrApproval.username
        = (approvalsFold l []).map Prod.fst := by
      rw [List.map_map]
      refine List.map_congr_left ?_
      intro kv hkv
      exact snd_username_approvalsFold l [] (by simp) kv hkv
    rw [h1]
    exact nodup_keys_approvalsFold l [] (by simp)
  · intro q
    rw [lookup_approvalsFold]
    simp [lookupApproval]

/-- Claim C5: per pull request, the computed approval map holds at most one
approval per username; only review events whose state is "APPROVED" and that
carry both an author login and a submitted-at timestamp contribute (this is
`contribGraphQl` / `contribGh`); and the surviving entry for a username is
the last-parsed contributing event in input order (`lastApprovalOf` searches
the contributed approvals from the back), regardless of `approved_at`
timestamps.  Both the batch loop (`batch_fetch_pr_details`) and the
single-item loop (`fetch_pr_info`) are covered. -/
theorem C5_approval_dedup :
    (∀ nodes : List GraphQlReviewNode,
      (((approvalsOfGraphQl nodes).map Prod.snd).map PrApproval.username).Nodup ∧
      ∀ login : String,
        lookupApproval (approvalsOfGraphQl nodes) login =
          lastApprovalOf (nodes.map contribGraphQl) login) ∧
    (∀ reviews : List GhReviewResponse,
      (((approvalsOfGh reviews).map Prod.snd).map PrApproval.username).Nodup ∧
      ∀ login : String,
        lookupApproval (approvalsOfGh reviews) login =
          lastApprovalOf (reviews.map contribGh) login) := by
  constructor
  · intro nodes
    rw [approvalsOfGraphQl_eq_fold]
    exact approvalsFold_spec (nodes.map contribGraphQl)
  · intro reviews
    rw [approvalsOfGh_eq_fold]
    exact approvalsFold_spec (reviews.map contribGh)

/- ============ Batched detail fetching (commands/mod.rs lines 318-487) ============ -/

/-- Model of Rust `str::strip_prefix` on character lists: `dropLit p s` is
`some` of the remainder when `p` is an initial segment of `s`. -/
def dropLit : List Char → List Char → Option (List Char)
  | [], s => some s
  | _ :: _, [] => none
  | p :: ps, c :: cs => if p = c then dropLit ps cs else none

/-- Model of Rust `str::parse::<u64>`: an optional leading `+`, then a
nonempty run of ASCII digits, rejecting values that do not fit in 64 bits. -/
def digitsToNat (acc : Nat) : List Char → Option Nat
  | [] => some acc
  | c :: cs => if c.isDigit then digitsToNat (acc * 10 + (c.toNat - 48)) cs else none

/-- See `digitsToNat`. -/
def parseU64 (s : List Char) : Option Nat :=
  let t := match s with
           | '+' :: rest => rest
           | _ => s
  match t with
  | [] => none
  | _ =>
    match digitsToNat 0 t with
    | some n => if n < 2 ^ 64 then some n else none
    | none => none

/-- Rust enum `GraphQlRequestedReviewer` (commands/mod.rs lines 374-379). -/
inductive GraphQlRequestedReviewer where
  | user (login : String)
  | team (slug : String)
deriving DecidableEq, Repr

/-- Rust struct `GraphQlReviewRequestNode` (commands/mod.rs lines 368-372). -/
structure GraphQlReviewRequestNode where
  requestedReviewer : Option GraphQlRequestedReviewer
deriving DecidableEq, Repr

/-- Rust struct `GraphQlPullRequest` (commands/mod.rs lines 336-343); the
`reviews.nodes` and `reviewRequests.nodes` wrappers are flattened to lists. -/
structure GraphQlPullRequest where
  number : Nat
  reviews : List GraphQlReviewNode
  reviewRequests : List GraphQlReviewRequestNode
deriving DecidableEq, Repr

/-- Rust struct `GraphQlRepository` (commands/mod.rs lines 330-334): the
serde-flattened map from fragment alias key to optional pull request,
kept as an association list. -/
structure GraphQlRepository where
  pull_requests : List (String × Option GraphQlPullRequest)
deriving DecidableEq, Repr

/-- Rust struct `GraphQlData` (commands/mod.rs lines 325-328). -/
structure GraphQlData where
  repository : Option GraphQlRepository
deriving DecidableEq, Repr

/-- Rust struct `GraphQlResponse` (commands/mod.rs lines 320-323). -/
structure GraphQlResponse where
  data : Option GraphQlData
deriving DecidableEq, Repr

/-- Outcome of the one external `gh api graphql` invocation of
`batch_fetch_pr_details`: the spawn may fail (`Command::output()` returns
`Err`), the tool may exit non-zero, the stdout may fail to parse as a
`GraphQlResponse`, or a parsed envelope comes back. -/
inductive ToolOutcome where
  | spawnError
  | exitFailure
  | parseError
  | parsed (resp : GraphQlResponse)
deriving DecidableEq, Repr

/-- Rendering of a requested reviewer (commands/mod.rs lines 459-467):
a user's login, or `team:{slug}` for a team. -/
def renderReviewer : GraphQlRequestedReviewer → String
  | .user login => login
  | .team slug => "team:" ++ slug

/-- Model of `HashMap::insert` for the batch result map. -/
def insertDetail (m : List (Nat × (List PrApproval × List String))) (k : Nat)
    (v : List PrApproval × List String) : List (Nat × (List PrApproval × List String)) :=
  if m.any (fun p => p.1 == k) then m.map (fun p => if p.1 == k then (k, v) else p)
  else m ++ [(k, v)]

/-- Model of `details.get(&pr.number).cloned().unwrap_or_default()`
(e.g. commands/mod.rs lines 574-577): the pair stored under the number, or
`([], [])` when the number is absent. -/
def lookupDetail (m : List (Nat × (List PrApproval × List String))) (n : Nat) :
    List PrApproval × List String :=
  ((m.find? (fun p => p.1 == n)).map Prod.snd).getD ([], [])

/-- One iteration of the fragment loop of `batch_fetch_pr_details`
(commands/mod.rs lines 438-478): a `null` pull request is skipped, the
approvals map and requested reviewers are extracted, and the entry is stored
under the number recovered by stripping the `pr` alias prefix from the
fragment key; fragments whose key does not parse are dropped. -/
def processFragment (result : List (Nat × (List PrApproval × List String)))
    (key : String) (propt : Option GraphQlPullRequest) :
    List (Nat × (List PrApproval × List String)) :=
  match propt with
  | none => result
  | some pr =>
    let approvals_map := approvalsOfGraphQl pr.reviews
    let requested_reviewers : List String :=
      pr.reviewRequests.filterMap (fun node => node.requestedReviewer.map renderReviewer)
    match dropLit ['p', 'r'] key.data with
    | some num_str =>
      match parseU64 num_str with
      | some num => insertDetail result num (approvals_map.map Prod.snd, requested_reviewers)
      | none => result
    | none => result

/-- Rust fn `batch_fetch_pr_details` (commands/mod.rs lines 383-487), with
the single external invocation's outcome passed explicitly.  The second
component records whether the external tool was invoked: an empty number
list, or a missing `gh` binary, returns the empty map without invoking it;
every failure or envelope-shape mismatch degrades to the empty map. -/
def batch_fetch_pr_details (pr_numbers : List Nat) (gh_path : Option String)
    (tool : ToolOutcome) : List (Nat × (List PrApproval × List String)) × Bool :=
  if pr_numbers.isEmpty then ([], false)
  else
    match gh_path with
    | none => ([], false)
    | some _ =>
      match tool with
      | .parsed resp =>
        (match resp.data with
         | some d =>
           match d.repository with
           | some repo =>
             repo.pull_requests.foldl (fun r kv => processFragment r kv.1 kv.2) []
           | none => []
         | none => [], true)
      | _ => ([], true)

/- ============ Per-category classification (commands/mod.rs lines 526-986) ============ -/

/-- The filter-and-classify body of `fetch_high_priority_prs`
(commands/mod.rs lines 561-586), taking the search rows and the batch detail
map: drop self-authored rows (case-insensitive), look up each row's details
(defaulting to no approvals / no reviewers), keep rows with exactly one
approval none of which is by `USER`, and sort ascending by creation time. -/
def fetch_high_priority_core (prs : List GhPrSearchItem)
    (details : List (Nat × (List PrApproval × List String))) : List GitHubPr :=
  let filtered_prs := prs.filter (fun pr => !(lowered pr.author == lowered USER))
  let result := filtered_prs.filterMap (fun pr =>
    let ad := lookupDetail details pr.number
    let i_approved := ad.1.any (fun a => lowered a.username == lowered USER)
    if ad.1.length == 1 && !i_approved then some (to_github_pr pr ad.1 ad.2) else none)
  result.mergeSort (fun a b => a.created_at ≤ b.created_at)

/-- The corresponding body of `fetch_medium_priority_prs` (commands/mod.rs
lines 638-661): same as high priority but without the approver check. -/
def fetch_medium_priority_core (prs : List GhPrSearchItem)
    (details : List (Nat × (List PrApproval × List String))) : List GitHubPr :=
  let filtered_prs := prs.filter (fun pr => !(lowered pr.author == lowered USER))
  let result := filtered_prs.filterMap (fun pr =>
    let ad := lookupDetail details pr.number
    if ad.1.length == 1 then some (to_github_pr pr ad.1 ad.2) else none)
  result.mergeSort (fun a b => a.created_at ≤ b.created_at)

/-- One iteration of the merge loops of `fetch_low_priority_prs`
(commands/mod.rs lines 711-718 and 738-745): the state is the seen-number
set and the accumulated items; a row is appended only if it is not
self-authored and its number is unseen. -/
def lowMergeStep (st : List Nat × List GhPrSearchItem) (pr : GhPrSearchItem) :
    List Nat × List GhPrSearchItem :=
  if !(lowered pr.author == lowered USER) && !(st.1.contains pr.number) then
    (pr.number :: st.1, st.2 ++ [pr])
  else st

/-- The merge-and-classify body of `fetch_low_priority_prs` (commands/mod.rs
lines 691-764): merge the two search results with shared seen-number state,
then keep the rows with an empty approval list, and sort. -/
def fetch_low_priority_core (prs1 prs2 : List GhPrSearchItem)
    (details : List (Nat × (List PrApproval × List String))) : List GitHubPr :=
  let st1 := prs1.foldl lowMergeStep ([], [])
  let st2 := prs2.foldl lowMergeStep st1
  let all_pr_items := st2.2
  let all_prs := all_pr_items.filterMap (fun pr =>
    let ad := lookupDetail details pr.number
    if ad.1.isEmpty then some (to_github_pr pr ad.1 ad.2) else none)
  all_prs.mergeSort (fun a b => a.created_at ≤ b.created_at)

/-- The classify body of `fetch_my_approved_prs` (commands/mod.rs lines
818-835): keep rows with a nonempty approval list (no self-author filter). -/
def fetch_my_approved_core (prs : List GhPrSearchItem)
    (details : List (Nat × (List PrApproval × List String))) : List GitHubPr :=
  (prs.filterMap (fun pr =>
    let ad := lookupDetail details pr.number
    if !ad.1.isEmpty then some (to_github_pr pr ad.1 ad.2) else none)).mergeSort
    (fun a b => a.created_at ≤ b.created_at)

/-- The classify body of `fetch_my_changes_requested_prs` (commands/mod.rs
lines 888-902): every search row is kept, with its details attached. -/
def fetch_my_changes_requested_core (prs : List GhPrSearchItem)
    (details : List (Nat × (List PrApproval × List String))) : List GitHubPr :=
  (prs.map (fun pr =>
    let ad := lookupDetail details pr.number
    to_github_pr pr ad.1 ad.2)).mergeSort
    (fun a b => a.created_at ≤ b.created_at)

/-- The classify body of `fetch_my_needs_review_prs` (commands/mod.rs lines
954-971): keep rows with an empty approval list. -/
def fetch_my_needs_review_core (prs : List GhPrSearchItem)
    (details : List (Nat × (List PrApproval × List String))) : List GitHubPr :=
  (prs.filterMap (fun pr =>
    let ad := lookupDetail details pr.number
    if ad.1.isEmpty then some (to_github_pr pr ad.1 ad.2) else none)).mergeSort
    (fun a b => a.created_at ≤ b.created_at)

theorem mem_filterMap_ite {α β : Type} (l : List α) (g : α → Bool) (f : α → β) (b : β) :
    b ∈ l.filterMap (fun a => if g a then some (f a) else none) ↔
      ∃ a ∈ l, g a = true ∧ b = f a := by
  rw [List.mem_filterMap]
  constructor
  · rintro ⟨a, ha, hf⟩
    by_cases hg : g a
    · rw [if_pos hg] at hf
      exact ⟨a, ha, hg, (Option.some_inj.mp hf).symm⟩
    · rw [if_neg hg] at hf
      cases hf
  · rintro ⟨a, ha, hg, rfl⟩
    exact ⟨a, ha, by rw [if_pos hg]⟩

/-- Claim C1: for every candidate list and batch-detail result, the
high-priority classification keeps exactly the rows that are not authored by
`USER` (case-insensitively), whose looked-up approval list has length
exactly 1, and none of whose approvals is by `USER` (case-insensitively);
each kept row appears as `to_github_pr` of the row and its details.  In
particular a row whose sole approver is `USER` is excluded. -/
theorem C1_high_priority_classification (prs : List GhPrSearchItem)
    (details : List (Nat × (List PrApproval × List String))) (p : GitHubPr) :
    p ∈ fetch_high_priority_core prs details ↔
      ∃ item ∈ prs,
        lowered item.author ≠ lowered USER ∧
        (lookupDetail details item.number).1.length = 1 ∧
        (∀ a ∈ (lookupDetail details item.number).1, lowered a.username ≠ lowered USER) ∧
        p = to_github_pr item (lookupDetail details item.number).1
              (lookupDetail details item.number).2 := by
  simp only [fetch_high_priority_core, List.mem_mergeSort, mem_filterMap_ite, List.mem_filter]
  constructor
  · rintro ⟨item, ⟨hmem, hauth⟩, hcond, rfl⟩
    rw [Bool.and_eq_true, beq_iff_eq, Bool.not_eq_true'] at hcond
    refine ⟨item, hmem, by simpa using hauth, hcond.1, ?_, rfl⟩
    intro a ha
    have h2 := List.any_eq_false.mp hcond.2 a ha
    simpa using h2
  · rintro ⟨item, hmem, hauth, hlen, happ, rfl⟩
    refine ⟨item, ⟨hmem, by simpa using hauth⟩, ?_, rfl⟩
    rw [Bool.and_eq_true, beq_iff_eq, Bool.not_eq_true']
    refine ⟨hlen, List.any_eq_false.mpr ?_⟩
    intro a ha
    simpa using happ a ha

/-- Claim C2: the batch detail fetch is total and degrading.  An empty
number set yields the empty map without invoking the tool; a spawn failure,
a non-zero exit, or an unparseable envelope yields the empty map rather than
an error; a number absent from the map looks up as no approvals and no
requested reviewers; and the classifying fetch never drops a candidate for
lack of details (shown on the changes-requested classifier, which applies no
predicate: every candidate row appears in its output with its defaulted
details). -/
theorem C2_batch_degrades :
    (∀ (gh : Option String) (tool : ToolOutcome),
      batch_fetch_pr_details [] gh tool = ([], false)) ∧
    (∀ (nums : List Nat) (gh : Option String),
      (batch_fetch_pr_details nums gh .spawnError).1 = [] ∧
      (batch_fetch_pr_details nums gh .exitFailure).1 = [] ∧
      (batch_fetch_pr_details nums gh .parseError).1 = []) ∧
    (∀ (details : List (Nat × (List PrApproval × List String))) (n : Nat),
      (∀ kv ∈ details, kv.1 ≠ n) → lookupDetail details n = ([], [])) ∧
    (∀ (prs : List GhPrSearchItem) (details : List (Nat × (List PrApproval × List String)))
        (pr : GhPrSearchItem), pr ∈ prs →
      to_github_pr pr (lookupDetail details pr.number).1 (lookupDetail details pr.number).2 ∈
        fetch_my_changes_requested_core prs details) := by
  refine ⟨?_, ?_, ?_, ?_⟩
  · intro gh tool
    rfl
  · intro nums gh
    cases nums with
    | nil => exact ⟨rfl, rfl, rfl⟩
    | cons n rest =>
      cases gh with
      | none => exact ⟨rfl, rfl, rfl⟩
      | some g => exact ⟨rfl, rfl, rfl⟩
  · intro details n h
    have hnone : details.find? (fun p => p.1 == n) = none := by
      rw [List.find?_eq_none]
      intro kv hkv
      simpa using h kv hkv
    rw [lookupDetail, hnone]
    rfl
  · intro prs details pr hpr
    simp only [fetch_my_changes_requested_core, List.mem_mergeSort, List.mem_map]
    exact ⟨pr, hpr, rfl⟩

/-- Witness for C2 at concrete inputs. -/
theorem C2_batch_degrades_witness :
    ((∀ kv ∈ ([(2, ([], ["r"]))] : List (Nat × (List PrApproval × List String))), kv.1 ≠ 1) ∧
      lookupDetail [(2, ([], ["r"]))] 1 = ([], [])) ∧
    (⟨1, "t", "u", "alice", "2024"⟩ ∈ [(⟨1, "t", "u", "alice", "2024"⟩ : GhPrSearchItem)] ∧
      to_github_pr ⟨1, "t", "u", "alice", "2024"⟩ (lookupDetail [] 1).1 (lookupDetail [] 1).2 ∈
        fetch_my_changes_requested_core [⟨1, "t", "u", "alice", "2024"⟩] []) :=
  ⟨⟨by decide, C2_batch_degrades.2.2.1 [(2, ([], ["r"]))] 1 (by decide)⟩,
    ⟨by simp, C2_batch_degrades.2.2.2 [⟨1, "t", "u", "alice", "2024"⟩] []
      ⟨1, "t", "u", "alice", "2024"⟩ (by simp)⟩⟩

/- ============ Low-priority merge semantics ============ -/

/-- First-seen-wins deduplication by PR number, as the spec describes the
merge of the two low-priority source searches. -/
def dedupByNumber : List GhPrSearchItem → List GhPrSearchItem
  | [] => []
  | x :: xs => x :: dedupByNumber (xs.filter (fun y => y.number != x.number))
termination_by l => l.length
decreasing_by
  simp only [List.length_cons]
  exact Nat.lt_succ_of_le (List.length_filter_le _ _)

/-- The tail-recursive reading of the merge loops: process the remaining
rows against a seen-number set. -/
def mergeRest (seen : List Nat) : List GhPrSearchItem → List GhPrSearchItem
  | [] => []
  | pr :: rest =>
    if !(lowered pr.author == lowered USER) && !(seen.contains pr.number) then
      pr :: mergeRest (pr.number :: seen) rest
    else mergeRest seen rest

theorem lowMergeStep_pos (seen : List Nat) (acc : List GhPrSearchItem)
    (pr : GhPrSearchItem)
    (hc : (!(lowered pr.author == lowered USER) && !(seen.contains pr.number)) = true) :
    lowMergeStep (seen, acc) pr = (pr.number :: seen, acc ++ [pr]) := by
  rw [lowMergeStep, if_pos hc]

theorem lowMergeStep_neg (seen : List Nat) (acc : List GhPrSearchItem)
    (pr : GhPrSearchItem)
    (hc : ¬(!(lowered pr.author == lowered USER) && !(seen.contains pr.number)) = true) :
    lowMergeStep (seen, acc) pr = (seen, acc) := by
  rw [lowMergeStep, if_neg hc]

theorem mergeRest_cons_pos (seen : List Nat) (pr : GhPrSearchItem)
    (rest : List GhPrSearchItem)
    (hc : (!(lowered pr.author == lowered USER) && !(seen.contains pr.number)) = true) :
    mergeRest seen (pr :: rest) = pr :: mergeRest (pr.number :: seen) rest := by
  rw [mergeRest, if_pos hc]

theorem mergeRest_cons_neg (seen : List Nat) (pr : GhPrSearchItem)
    (rest : List GhPrSearchItem)
    (hc : ¬(!(lowered pr.author == lowered USER) && !(seen.contains pr.number)) = true) :
    mergeRest seen (pr :: rest) = mergeRest seen rest := by
  rw [mergeRest, if_neg hc]

theorem foldl_lowMergeStep (l : List GhPrSearchItem) :
    ∀ (seen : List Nat) (acc : List GhPrSearchItem),
      (l.foldl lowMergeStep (seen, acc)).2 = acc ++ mergeRest seen l := by
  induction l with
  | nil => intro seen acc; simp [mergeRest]
  | cons pr rest ih =>
    intro seen acc
    rw [List.foldl_cons]
    by_cases hc : (!(lowered pr.author == lowered USER) && !(seen.contains pr.number)) = true
    · rw [lowMergeStep_pos seen acc pr hc, ih (pr.number :: seen) (acc ++ [pr]),
        mergeRest_cons_pos seen pr rest hc]
      simp
    · rw [lowMergeStep_neg seen acc pr hc, ih seen acc, mergeRest_cons_neg seen pr rest hc]

theorem mergeRest_eq_dedup (l : List GhPrSearchItem) :
    ∀ seen : List Nat,
      mergeRest seen l =
        dedupByNumber (l.filter
          (fun pr => !(lowered pr.author == lowered USER) && !(seen.contains pr.number))) := by
  induction l with
  | nil =>
    intro seen
    rw [List.filter_nil, mergeRest, dedupByNumber]
  | cons pr rest ih =>
    intro seen
    by_cases hc : (!(lowered pr.author == lowered USER) && !(seen.contains pr.number)) = true
    · rw [mergeRest_cons_pos seen pr rest hc, List.filter_cons, if_pos hc, dedupByNumber,
        ih (pr.number :: seen)]
      congr 1
      rw [List.filter_filter]
      refine congrArg dedupByNumber (List.filter_congr ?_)
      intro q _
      cases h1 : lowered q.author == lowered USER <;>
        cases h2 : q.number == pr.number <;>
          cases h3 : seen.contains q.number <;>
            simp_all [bne, List.contains_cons]
    · rw [mergeRest_cons_neg seen pr rest hc, List.filter_cons, if_neg hc]
      exact ih seen

theorem mergeRest_numbers_nodup (l : List GhPrSearchItem) :
    ∀ seen : List Nat,
      ((mergeRest seen l).map GhPrSearchItem.number).Nodup ∧
      ∀ n ∈ seen, n ∉ (mergeRest seen l).map GhPrSearchItem.number := by
  induction l with
  | nil =>
    intro seen
    rw [mergeRest]
    exact ⟨List.nodup_nil, by intro n _ h; cases h⟩
  | cons pr rest ih =>
    intro seen
    by_cases hc : (!(lowered pr.author == lowered USER) && !(seen.contains pr.number)) = true
    · rw [mergeRest_cons_pos seen pr rest hc]
      have hseen : seen.contains pr.number = false := by
        have hc' := hc
        rw [Bool.and_eq_true] at hc'
        have h2 := hc'.2
        rwa [Bool.not_eq_true'] at h2
      constructor
      · rw [List.map_cons]
        refine List.Nodup.cons ?_ (ih (pr.number :: seen)).1
        exact (ih (pr.number :: seen)).2 pr.number (List.mem_cons_self _ _)
      · intro n hn
        rw [List.map_cons, List.mem_cons]
        rintro (h1 | h1)
        · have hmem : seen.contains pr.number = true := by
            rw [← h1]
            exact List.elem_eq_true_of_mem hn
          rw [hmem] at hseen
          cases hseen
        · exact (ih (pr.number :: seen)).2 n (List.mem_cons_of_mem _ hn) h1
    · rw [mergeRest_cons_neg seen pr rest hc]
      exact ih seen

theorem filterMap_ite_eq {α β : Type} (l : List α) (g : α → Bool) (f : α → β) :
    l.filterMap (fun a => if g a then some (f a) else none) = (l.filter g).map f := by
  induction l with
  | nil => rfl
  | cons a t ih =>
    by_cases hg : g a <;> simp [List.filterMap_cons, List.filter_cons, hg, ih]

theorem low_candidates_eq (prs1 prs2 : List GhPrSearchItem) :
    (prs2.foldl lowMergeStep (prs1.foldl lowMergeStep ([], []))).2 =
      dedupByNumber ((prs1 ++ prs2).filter
        (fun pr => !(lowered pr.author == lowered USER))) := by
  rw [← List.foldl_append, foldl_lowMergeStep, List.nil_append, mergeRest_eq_dedup]
  refine congrArg dedupByNumber (List.filter_congr ?_)
  intro q _
  simp

theorem nodup_map_mergeSort {α β : Type} (l : List α) (le : α → α → Bool) (f : α → β)
    (h : (l.map f).Nodup) : ((l.mergeSort le).map f).Nodup :=
  (((List.mergeSort_perm l le).map f).nodup_iff).mpr h

/-- Claim C4: the low-priority fetch merges the two source searches
deduplicated by PR number with the first-seen row winning — the merged
candidate list is exactly `dedupByNumber` of the self-author-filtered
concatenation, so the final result carries no duplicate PR numbers — and it
keeps exactly the candidates whose looked-up approval list is empty. -/
theorem C4_low_priority_merge :
    (∀ (prs1 prs2 : List GhPrSearchItem)
        (details : List (Nat × (List PrApproval × List String))),
      ((fetch_low_priority_core prs1 prs2 details).map GitHubPr.number).Nodup) ∧
    (∀ prs1 prs2 : List GhPrSearchItem,
      (prs2.foldl lowMergeStep (prs1.foldl lowMergeStep ([], []))).2 =
        dedupByNumber ((prs1 ++ prs2).filter
          (fun pr => !(lowered pr.author == lowered USER)))) ∧
    (∀ (prs1 prs2 : List GhPrSearchItem)
        (details : List (Nat × (List PrApproval × List String))) (p : GitHubPr),
      p ∈ fetch_low_priority_core prs1 prs2 details ↔
        ∃ item ∈ dedupByNumber ((prs1 ++ prs2).filter
            (fun pr => !(lowered pr.author == lowered USER))),
          (lookupDetail details item.number).1 = [] ∧
          p = to_github_pr item (lookupDetail details item.number).1
                (lookupDetail details item.number).2) := by
  refine ⟨?_, low_candidates_eq, ?_⟩
  · intro prs1 prs2 details
    rw [fetch_low_priority_core]
    refine nodup_map_mergeSort _ _ _ ?_
    rw [filterMap_ite_eq, List.map_map]
    have hmapnum : ∀ pr : GhPrSearchItem,
        (GitHubPr.number ∘ fun pr =>
          to_github_pr pr (lookupDetail details pr.number).1
            (lookupDetail details pr.number).2) pr = pr.number := fun _ => rfl
    rw [List.map_congr_left (fun pr _ => hmapnum pr)]
    refine List.Nodup.sublist ((List.filter_sublist _).map GhPrSearchItem.number) ?_
    rw [← List.foldl_append, foldl_lowMergeStep, List.nil_append]
    exact (mergeRest_numbers_nodup (prs1 ++ prs2) []).1
  · intro prs1 prs2 details p
    rw [fetch_low_priority_core]
    rw [List.mem_mergeSort, mem_filterMap_ite, low_candidates_eq]
    constructor
    · rintro ⟨item, hitem, hguard, rfl⟩
      exact ⟨item, hitem, by simpa using hguard, rfl⟩
    · rintro ⟨item, hitem, hempty, rfl⟩
      exact ⟨item, hitem, by simpa using hempty, rfl⟩

/- ============ URL parsing (commands/mod.rs lines 105-129, 178-190) ============ -/

/-- The preprocessing of `parse_pr_url` (commands/mod.rs line 107):
`url.split('?').next().unwrap_or(url)` followed by `trim_end_matches('/')`,
on character lists. -/
def cleanChars (url : List Char) : List Char :=
  List.rdropWhile (fun c => c == '/') ((url.splitOn '?').headD url)

/-- The GitHub URL base `https://github.com/` as characters. -/
def ghBase : List Char := "https://github.com/".data

/-- The Graphite `.dev` URL base as characters. -/
def graphiteDevBase : List Char := "https://app.graphite.dev/github/pr/".data

/-- The Graphite `.com` URL base as characters. -/
def graphiteComBase : List Char := "https://app.graphite.com/github/pr/".data

/-- URL path segments used by the recognized shapes. -/
def segHttps : List Char := "https:".data

/-- See `segHttps`. -/
def segGithubCom : List Char := "github.com".data

/-- See `segHttps`. -/
def segGraphiteDev : List Char := "app.graphite.dev".data

/-- See `segHttps`. -/
def segGraphiteCom : List Char := "app.graphite.com".data

/-- See `segHttps`. -/
def segGithub : List Char := "github".data

/-- See `segHttps`. -/
def segPr : List Char := "pr".data

/-- See `segHttps`. -/
def segPull : List Char := "pull".data

/-- One iteration of the Graphite-domain loop of `parse_pr_url`
(commands/mod.rs lines 119-127): strip the domain, split the remainder on
`/`, and on at least three segments return (org, repo, number truncated at
the first `/`). -/
def graphiteTry (base clean : List Char) : Option (List Char × List Char × List Char) :=
  match dropLit base clean with
  | some caps =>
    let parts := caps.splitOn '/'
    if parts.length ≥ 3 then
      some (parts.getD 0 [], parts.getD 1 [],
        ((parts.getD 2 []).splitOn '/').headD (parts.getD 2 []))
    else none
  | none => none

/-- The body of Rust fn `parse_pr_url` after preprocessing (commands/mod.rs
lines 109-128): try the GitHub pull shape, then the two Graphite domains in
order. -/
def parse_pr_url_cleaned (clean_url : List Char) : Option (List Char × List Char × List Char) :=
  let github :=
    match dropLit ghBase clean_url with
    | some caps =>
      let parts := caps.splitOn '/'
      if parts.length ≥ 4 && parts.getD 2 [] == segPull then
        some (parts.getD 0 [], parts.getD 1 [],
          ((parts.getD 3 []).splitOn '/').headD (parts.getD 3 []))
      else none
    | none => none
  match github with
  | some r => some r
  | none =>
    match graphiteTry graphiteDevBase clean_url with
    | some r => some r
    | none => graphiteTry graphiteComBase clean_url

/-- Rust fn `parse_pr_url` (commands/mod.rs lines 106-129) on character
lists: clean the URL, then match the recognized shapes. -/
def parse_pr_url_chars (url : List Char) : Option (List Char × List Char × List Char) :=
  parse_pr_url_cleaned (cleanChars url)

/-- Rust fn `parse_pr_url`, packaging the character-list result as strings. -/
def parse_pr_url (url : String) : Option (String × String × String) :=
  (parse_pr_url_chars url.data).map (fun t => (⟨t.1⟩, ⟨t.2.1⟩, ⟨t.2.2⟩))

/- ============ Single-item lookup fetch_pr_info (commands/mod.rs lines 131-176) ============ -/

/-- Outcome of the title call of `fetch_pr_info`. -/
inductive TitleOutcome where
  | spawnError (msg : String)
  | exitFailure (stderr : String)
  | ok (title : String)
deriving DecidableEq, Repr

/-- Outcome of the reviews call of `fetch_pr_info`. -/
inductive ReviewsOutcome where
  | spawnError (msg : String)
  | exitFailure
  | parseError
  | parsed (reviews : List GhReviewResponse)
deriving DecidableEq, Repr

/-- Rust fn `fetch_pr_info` (commands/mod.rs lines 131-176) with the two
external calls' outcomes passed explicitly.  A spawn failure of either call
aborts with an error, as does a non-zero exit of the title call; but a
non-zero exit of the reviews call, or an unparseable reviews body, falls
through to `Ok` with the approvals vector still empty. -/
def fetch_pr_info (url : String) (gh_path : Option String)
    (titleCall : TitleOutcome) (reviewsCall : ReviewsOutcome) :
    Except String (String × List PrApproval) :=
  match parse_pr_url url with
  | none => .error "Invalid PR URL format"
  | some _ =>
    match gh_path with
    | none => .error "GitHub CLI (gh) not found. Please install it: https://cli.github.com/"
    | some _ =>
      match titleCall with
      | .spawnError e => .error ("Failed to run gh command: " ++ e)
      | .exitFailure stderr => .error ("Failed to fetch PR title: " ++ stderr)
      | .ok title =>
        match reviewsCall with
        | .spawnError e => .error ("Failed to run gh command: " ++ e)
        | .exitFailure => .ok (title, [])
        | .parseError => .ok (title, [])
        | .parsed reviews => .ok (title, (approvalsOfGh reviews).map Prod.snd)

/-- Claim C8 counterexample: with a valid URL, a located tool and a
successful title call, a non-zero exit of the reviews call yields
`Ok(title, [])` — success with an empty approval list — not an error. -/
theorem C8_counterexample :
    fetch_pr_info "https://github.com/acme/widgets/pull/42" (some "/usr/bin/gh")
      (.ok "Title") .exitFailure = .ok ("Title", []) := by
  rfl

/-- Claim C8 as amended: in `fetch_pr_info`, a non-zero exit of the reviews
call or an unparseable reviews body degrades silently to success with an
empty approval list; only a spawn failure of the reviews call (or any
failure of the title call) aborts the operation. -/
theorem C8_reviews_degrade :
    ∀ (url ghp title e : String),
      (parse_pr_url url).isSome = true →
      fetch_pr_info url (some ghp) (.ok title) .exitFailure = .ok (title, []) ∧
      fetch_pr_info url (some ghp) (.ok title) .parseError = .ok (title, []) ∧
      fetch_pr_info url (some ghp) (.ok title) (.spawnError e) =
        .error ("Failed to run gh command: " ++ e) ∧
      fetch_pr_info url (some ghp) (.exitFailure e) .exitFailure =
        .error ("Failed to fetch PR title: " ++ e) := by
  intro url ghp title e h
  match hp : parse_pr_url url with
  | none => rw [hp] at h; cases h
  | some v => refine ⟨?_, ?_, ?_, ?_⟩ <;> simp [fetch_pr_info, hp]

/-- Witness for C8 at a concrete input. -/
theorem C8_reviews_degrade_witness :
    (parse_pr_url "https://github.com/acme/widgets/pull/42").isSome = true ∧
    fetch_pr_info "https://github.com/acme/widgets/pull/42" (some "gh")
      (.ok "T") .parseError = .ok ("T", []) :=
  ⟨by rfl,
    (C8_reviews_degrade "https://github.com/acme/widgets/pull/42" "gh" "T" "e" (by rfl)).2.1⟩

/- ============ Search-step outcomes of the category fetches ============ -/

/-- Outcome of one `gh search prs` invocation inside a category fetch: the
spawn may fail (`Command::output()` returns `Err`), the tool may exit
non-zero, the stdout may fail to parse as `Vec<GhPrSearchItem>`, or a row
list comes back. -/
inductive SearchOutcome where
  | spawnError (msg : String)
  | exitFailure (stderr : String)
  | parseError (msg : String)
  | ok (items : List GhPrSearchItem)
deriving DecidableEq, Repr

/-- The rows a search outcome contributes in the low-priority merge loops
(commands/mod.rs lines 708-720, 735-747): only a successful, parseable
search contributes rows; a non-zero exit or a parse failure is silently
skipped by the `if output.status.success()` / `if let Ok(prs)` guards. -/
def searchItems : SearchOutcome → List GhPrSearchItem
  | .ok items => items
  | _ => []

/-- Whether the outcome is a spawn failure (`Command::output()` `Err`). -/
def isSpawnErr : SearchOutcome → Bool
  | .spawnError _ => true
  | _ => false

/-- The search-and-classify body of `fetch_high_priority_prs`
(commands/mod.rs lines 537-597): any search failure aborts with the
corresponding error; otherwise the classification core runs. -/
def fetch_high_priority_run (search : SearchOutcome)
    (details : List (Nat × (List PrApproval × List String))) :
    Except String (List GitHubPr) :=
  match search with
  | .spawnError e => .error ("Failed to run gh command: " ++ e)
  | .exitFailure stderr => .error ("Failed to search PRs: " ++ stderr)
  | .parseError e => .error ("Failed to parse PR JSON: " ++ e)
  | .ok prs => .ok (fetch_high_priority_core prs details)

/-- The body of `fetch_medium_priority_prs` (commands/mod.rs lines 614-672),
same failure structure as the high-priority one. -/
def fetch_medium_priority_run (search : SearchOutcome)
    (details : List (Nat × (List PrApproval × List String))) :
    Except String (List GitHubPr) :=
  match search with
  | .spawnError e => .error ("Failed to run gh command: " ++ e)
  | .exitFailure stderr => .error ("Failed to search PRs: " ++ stderr)
  | .parseError e => .error ("Failed to parse PR JSON: " ++ e)
  | .ok prs => .ok (fetch_medium_priority_core prs details)

/-- The body of `fetch_my_approved_prs` (commands/mod.rs lines 794-846). -/
def fetch_my_approved_run (search : SearchOutcome)
    (details : List (Nat × (List PrApproval × List String))) :
    Except String (List GitHubPr) :=
  match search with
  | .spawnError e => .error ("Failed to run gh command: " ++ e)
  | .exitFailure stderr => .error ("Failed to search PRs: " ++ stderr)
  | .parseError e => .error ("Failed to parse PR JSON: " ++ e)
  | .ok prs => .ok (fetch_my_approved_core prs details)

/-- The body of `fetch_my_changes_requested_prs` (commands/mod.rs lines
863-913). -/
def fetch_my_changes_requested_run (search : SearchOutcome)
    (details : List (Nat × (List PrApproval × List String))) :
    Except String (List GitHubPr) :=
  match search with
  | .spawnError e => .error ("Failed to run gh command: " ++ e)
  | .exitFailure stderr => .error ("Failed to search PRs: " ++ stderr)
  | .parseError e => .error ("Failed to parse PR JSON: " ++ e)
  | .ok prs => .ok (fetch_my_changes_requested_core prs details)

/-- The body of `fetch_my_needs_review_prs` (commands/mod.rs lines 930-982). -/
def fetch_my_needs_review_run (search : SearchOutcome)
    (details : List (Nat × (List PrApproval × List String))) :
    Except String (List GitHubPr) :=
  match search with
  | .spawnError e => .error ("Failed to run gh command: " ++ e)
  | .exitFailure stderr => .error ("Failed to search PRs: " ++ stderr)
  | .parseError e => .error ("Failed to parse PR JSON: " ++ e)
  | .ok prs => .ok (fetch_my_needs_review_core prs details)

/-- The body of `fetch_low_priority_prs` (commands/mod.rs lines 689-776):
only a spawn failure of either search aborts (via the `?` on
`Command::output()`); a non-zero exit or a parse failure of a search merely
contributes no rows, and the fetch still succeeds. -/
def fetch_low_priority_run (s1 s2 : SearchOutcome)
    (details : List (Nat × (List PrApproval × List String))) :
    Except String (List GitHubPr) :=
  match s1 with
  | .spawnError e => .error ("Failed to run gh command: " ++ e)
  | _ =>
    match s2 with
    | .spawnError e => .error ("Failed to run gh command: " ++ e)
    | _ => .ok (fetch_low_priority_core (searchItems s1) (searchItems s2) details)

/-- A sample non-self-authored search row used in counterexamples. -/
def samplePr : GhPrSearchItem :=
  { number := 7, title := "t", url := "u", author := "alice", created_at := "2024-01-01" }

/-- Claim C7 counterexample: in the low-priority fetch a non-zero exit of
the first source search does not abort — the fetch still returns `Ok`,
built from the second search alone. -/
theorem C7_counterexample :
    fetch_low_priority_run (.exitFailure "boom") (.ok [samplePr]) [] =
      .ok [to_github_pr samplePr [] []] := by
  have hcore : fetch_low_priority_core [] [samplePr] [] = [to_github_pr samplePr [] []] := by
    rw [fetch_low_priority_core,
      show ([samplePr].foldl lowMergeStep (([] : List GhPrSearchItem).foldl
        lowMergeStep ([], []))).2 = [samplePr] from rfl,
      show ([samplePr].filterMap (fun pr =>
        let ad := lookupDetail [] pr.number
        if ad.1.isEmpty then some (to_github_pr pr ad.1 ad.2) else none)) =
        [to_github_pr samplePr [] []] from rfl,
      List.mergeSort_singleton]
  show Except.ok (fetch_low_priority_core (searchItems (.exitFailure "boom"))
    (searchItems (.ok [samplePr])) []) = Except.ok [to_github_pr samplePr [] []]
  rw [show searchItems (.exitFailure "boom") = [] from rfl,
    show searchItems (.ok [samplePr]) = [samplePr] from rfl, hcore]

/-- Claim C7 as amended: for the HighPriority, MediumPriority, MyApproved,
MyChangesRequested and MyNeedsReview fetches, a source-search failure of any
kind (spawn failure, non-zero exit, unparseable output) aborts the whole
category fetch with an error; in the LowPriority fetch only a spawn failure
of either search aborts — a non-zero exit or unparseable output of either
source search silently contributes no candidates and the fetch succeeds with
the remaining rows. -/
theorem C7_search_failures :
    (∀ (e : String) (details : List (Nat × (List PrApproval × List String))),
      fetch_high_priority_run (.spawnError e) details =
        .error ("Failed to run gh command: " ++ e) ∧
      fetch_high_priority_run (.exitFailure e) details =
        .error ("Failed to search PRs: " ++ e) ∧
      fetch_high_priority_run (.parseError e) details =
        .error ("Failed to parse PR JSON: " ++ e) ∧
      fetch_medium_priority_run (.spawnError e) details =
        .error ("Failed to run gh command: " ++ e) ∧
      fetch_medium_priority_run (.exitFailure e) details =
        .error ("Failed to search PRs: " ++ e) ∧
      fetch_medium_priority_run (.parseError e) details =
        .error ("Failed to parse PR JSON: " ++ e) ∧
      fetch_my_approved_run (.spawnError e) details =
        .error ("Failed to run gh command: " ++ e) ∧
      fetch_my_approved_run (.exitFailure e) details =
        .error ("Failed to search PRs: " ++ e) ∧
      fetch_my_approved_run (.parseError e) details =
        .error ("Failed to parse PR JSON: " ++ e) ∧
      fetch_my_changes_requested_run (.spawnError e) details =
        .error ("Failed to run gh command: " ++ e) ∧
      fetch_my_changes_requested_run (.exitFailure e) details =
        .error ("Failed to search PRs: " ++ e) ∧
      fetch_my_changes_requested_run (.parseError e) details =
        .error ("Failed to parse PR JSON: " ++ e) ∧
      fetch_my_needs_review_run (.spawnError e) details =
        .error ("Failed to run gh command: " ++ e) ∧
      fetch_my_needs_review_run (.exitFailure e) details =
        .error ("Failed to search PRs: " ++ e) ∧
      fetch_my_needs_review_run (.parseError e) details =
        .error ("Failed to parse PR JSON: " ++ e)) ∧
    (∀ (e : String) (s2 : SearchOutcome)
        (details : List (Nat × (List PrApproval × List String))),
      fetch_low_priority_run (.spawnError e) s2 details =
        .error ("Failed to run gh command: " ++ e)) ∧
    (∀ (e : String) (s1 : SearchOutcome)
        (details : List (Nat × (List PrApproval × List String))),
      isSpawnErr s1 = false →
      fetch_low_priority_run s1 (.spawnError e) details =
        .error ("Failed to run gh command: " ++ e)) ∧
    (∀ (s1 s2 : SearchOutcome) (details : List (Nat × (List PrApproval × List String))),
      isSpawnErr s1 = false → isSpawnErr s2 = false →
      fetch_low_priority_run s1 s2 details =
        .ok (fetch_low_priority_core (searchItems s1) (searchItems s2) details)) := by
  refine ⟨?_, ?_, ?_, ?_⟩
  · intro e details
    exact ⟨rfl, rfl, rfl, rfl, rfl, rfl, rfl, rfl, rfl, rfl, rfl, rfl, rfl, rfl, rfl⟩
  · intro e s2 details
    rfl
  · intro e s1 details h1
    cases s1 with
    | spawnError m => cases h1
    | exitFailure m => rfl
    | parseError m => rfl
    | ok items => rfl
  · intro s1 s2 details h1 h2
    cases s1 with
    | spawnError m => cases h1
    | exitFailure m =>
      cases s2 with
      | spawnError m2 => cases h2
      | exitFailure m2 => rfl
      | parseError m2 => rfl
      | ok items2 => rfl
    | parseError m =>
      cases s2 with
      | spawnError m2 => cases h2
      | exitFailure m2 => rfl
      | parseError m2 => rfl
      | ok items2 => rfl
    | ok items =>
      cases s2 with
      | spawnError m2 => cases h2
      | exitFailure m2 => rfl
      | parseError m2 => rfl
      | ok items2 => rfl

/-- Witness for C7 at concrete inputs. -/
theorem C7_search_failures_witness :
    (isSpawnErr (.parseError "bad") = false ∧
      fetch_low_priority_run (.parseError "bad") (.spawnError "x") [] =
        .error ("Failed to run gh command: " ++ "x")) ∧
    (isSpawnErr (.ok [samplePr]) = false ∧ isSpawnErr (.ok []) = false ∧
      fetch_low_priority_run (.ok [samplePr]) (.ok []) [] =
        .ok (fetch_low_priority_core (searchItems (.ok [samplePr]))
          (searchItems (.ok [])) [])) :=
  ⟨⟨rfl, C7_search_failures.2.2.1 "x" (.parseError "bad") [] rfl⟩,
    ⟨rfl, rfl, C7_search_failures.2.2.2 (.ok [samplePr]) (.ok []) [] rfl rfl⟩⟩

/- ============ Claim C6: the recognized URL shapes ============ -/

/-- The recognized shapes as the spec states them, by splitting the whole
cleaned URL on `/` and matching the full segment pattern:
`https://github.com/{org}/{repo}/pull/{n}[/...]`,
`https://app.graphite.dev/github/pr/{org}/{repo}/{n}[/...]` and the `.com`
variant; every other cleaned URL yields no match. -/
def parsePrUrlSpec_cleaned (clean : List Char) : Option (List Char × List Char × List Char) :=
  let segs := clean.splitOn '/'
  if segs.length ≥ 7 ∧ segs.take 3 = [segHttps, [], segGithubCom] ∧
      segs.getD 5 [] = segPull then
    some (segs.getD 3 [], segs.getD 4 [], segs.getD 6 [])
  else if segs.length ≥ 8 ∧
      segs.take 5 = [segHttps, [], segGraphiteDev, segGithub, segPr] then
    some (segs.getD 5 [], segs.getD 6 [], segs.getD 7 [])
  else if segs.length ≥ 8 ∧
      segs.take 5 = [segHttps, [], segGraphiteCom, segGithub, segPr] then
    some (segs.getD 5 [], segs.getD 6 [], segs.getD 7 [])
  else none

/-- The spec-side parser: same preprocessing (which the claim states
explicitly), then the shape match of `parsePrUrlSpec_cleaned`. -/
def parsePrUrlSpec (url : String) : Option (String × String × String) :=
  (parsePrUrlSpec_cleaned (cleanChars url.data)).map (fun t => (⟨t.1⟩, ⟨t.2.1⟩, ⟨t.2.2⟩))

theorem dropLit_eq_some_iff : ∀ (p s r : List Char), dropLit p s = some r ↔ s = p ++ r := by
  intro p
  induction p with
  | nil =>
    intro s r
    rw [dropLit]
    simp
  | cons c cs ih =>
    intro s r
    cases s with
    | nil =>
      rw [dropLit]
      simp
    | cons x xs =>
      rw [dropLit]
      by_cases hx : c = x
      · rw [if_pos hx, ih xs r]
        subst hx
        simp
      · rw [if_neg hx]
        simp only [List.cons_append, List.cons.injEq]
        constructor
        · intro h; cases h
        · rintro ⟨h1, -⟩; exact absurd h1.symm hx

theorem dropLit_self (p r : List Char) : dropLit p (p ++ r) = some r :=
  (dropLit_eq_some_iff p (p ++ r) r).mpr rfl

theorem dropLit_none_of (p s : List Char) (h : ∀ r, s ≠ p ++ r) : dropLit p s = none := by
  cases hd : dropLit p s with
  | none => rfl
  | some r => exact absurd ((dropLit_eq_some_iff p s r).mp hd) (h r)

theorem append_ne_append_at (l1 l2 : List Char) (n : Nat) (h1 : n < l1.length)
    (h2 : n < l2.length) (hne : l1.getD n ' ' ≠ l2.getD n ' ') (a b : List Char) :
    l1 ++ a ≠ l2 ++ b := by
  intro h
  apply hne
  have hd : (l1 ++ a).getD n ' ' = (l2 ++ b).getD n ' ' := by rw [h]
  rwa [List.getD_append l1 a ' ' n h1, List.getD_append l2 b ' ' n h2] at hd

theorem graphiteTry_none (base clean : List Char) (h : dropLit base clean = none) :
    graphiteTry base clean = none := by
  rw [graphiteTry, h]

theorem splitOn_seg (xs : List Char) (h : ∀ x ∈ xs, ¬((x == '/') = true)) (as : List Char) :
    List.splitOnP (fun c => c == '/') (xs ++ '/' :: as) =
      xs :: List.splitOnP (fun c => c == '/') as :=
  List.splitOnP_first _ xs h '/' (by decide) as

theorem no_slash_piece : ∀ (l : List Char) (pc : List Char),
    pc ∈ List.splitOnP (fun c => c == '/') l → '/' ∉ pc := by
  intro l
  induction l with
  | nil =>
    intro pc hpc
    rw [List.splitOnP_nil] at hpc
    rw [List.mem_singleton.mp hpc]
    exact List.not_mem_nil '/'
  | cons x xs ih =>
    intro pc hpc
    rw [List.splitOnP_cons] at hpc
    by_cases hx : (x == '/') = true
    · rw [if_pos hx] at hpc
      rcases List.mem_cons.mp hpc with h1 | h1
      · rw [h1]; exact List.not_mem_nil '/'
      · exact ih pc h1
    · rw [if_neg hx] at hpc
      obtain ⟨h0, t0, ht⟩ := List.exists_cons_of_ne_nil (List.splitOnP_ne_nil _ xs)
      rw [ht, List.modifyHead] at hpc
      rcases List.mem_cons.mp hpc with h1 | h1
      · subst h1
        intro hmem
        rcases List.mem_cons.mp hmem with h2 | h2
        · rw [← h2] at hx; exact hx (by decide)
        · exact ih h0 (ht ▸ List.mem_cons_self h0 t0) h2
      · exact ih pc (ht ▸ List.mem_cons_of_mem h0 h1)

theorem headD_splitOn_self (p : List Char) (h : '/' ∉ p) :
    (p.splitOn '/').headD p = p := by
  have : p.splitOn '/' = [p] := by
    show List.splitOnP (fun c => c == '/') p = [p]
    refine List.splitOnP_eq_single _ _ ?_
    intro x hx hbeq
    exact h (by rwa [show x = '/' from beq_iff_eq.mp hbeq] at hx)
  rw [this]
  rfl


theorem splitOn_github (caps : List Char) :
    List.splitOn '/' (ghBase ++ caps) =
      segHttps :: [] :: segGithubCom :: List.splitOn '/' caps := by
  show List.splitOnP (fun c => c == '/') _ = _
  rw [show ghBase ++ caps =
      segHttps ++ '/' :: (([] : List Char) ++ '/' :: (segGithubCom ++ '/' :: caps)) from rfl]
  rw [splitOn_seg _ (by decide), splitOn_seg _ (by decide), splitOn_seg _ (by decide)]
  rfl

theorem splitOn_graphite_dev (caps : List Char) :
    List.splitOn '/' (graphiteDevBase ++ caps) =
      segHttps :: [] :: segGraphiteDev :: segGithub :: segPr :: List.splitOn '/' caps := by
  show List.splitOnP (fun c => c == '/') _ = _
  rw [show graphiteDevBase ++ caps =
      segHttps ++ '/' :: (([] : List Char) ++ '/' :: (segGraphiteDev ++ '/' ::
        (segGithub ++ '/' :: (segPr ++ '/' :: caps)))) from rfl]
  rw [splitOn_seg _ (by decide), splitOn_seg _ (by decide), splitOn_seg _ (by decide),
    splitOn_seg _ (by decide), splitOn_seg _ (by decide)]
  rfl

theorem splitOn_graphite_com (caps : List Char) :
    List.splitOn '/' (graphiteComBase ++ caps) =
      segHttps :: [] :: segGraphiteCom :: segGithub :: segPr :: List.splitOn '/' caps := by
  show List.splitOnP (fun c => c == '/') _ = _
  rw [show graphiteComBase ++ caps =
      segHttps ++ '/' :: (([] : List Char) ++ '/' :: (segGraphiteCom ++ '/' ::
        (segGithub ++ '/' :: (segPr ++ '/' :: caps)))) from rfl]
  rw [splitOn_seg _ (by decide), splitOn_seg _ (by decide), splitOn_seg _ (by decide),
    splitOn_seg _ (by decide), splitOn_seg _ (by decide)]
  rfl

theorem intercalate_slash_cons_cons (a b : List Char) (l : List (List Char)) :
    List.intercalate ['/'] (a :: b :: l) = a ++ '/' :: List.intercalate ['/'] (b :: l) := by
  simp [List.intercalate, List.intersperse_cons_cons]

theorem take3_prefix (clean s0 s1 s2 : List Char)
    (hlen : 4 ≤ (clean.splitOn '/').length)
    (htake : (clean.splitOn '/').take 3 = [s0, s1, s2]) :
    ∃ r, clean = s0 ++ '/' :: (s1 ++ '/' :: (s2 ++ '/' :: r)) := by
  have hsegs := List.take_append_drop 3 (clean.splitOn '/')
  have hdlen : 0 < ((clean.splitOn '/').drop 3).length := by
    rw [List.length_drop]
    omega
  obtain ⟨d, l', hd⟩ := List.exists_cons_of_ne_nil (List.ne_nil_of_length_pos hdlen)
  have hclean : clean = List.intercalate ['/'] (clean.splitOn '/') :=
    (List.intercalate_splitOn clean '/').symm
  rw [← hsegs, htake, hd] at hclean
  refine ⟨List.intercalate ['/'] (d :: l'), ?_⟩
  rw [hclean,
    show ([s0, s1, s2] ++ d :: l') = s0 :: s1 :: s2 :: d :: l' from rfl,
    intercalate_slash_cons_cons, intercalate_slash_cons_cons, intercalate_slash_cons_cons]

theorem take5_prefix (clean s0 s1 s2 s3 s4 : List Char)
    (hlen : 6 ≤ (clean.splitOn '/').length)
    (htake : (clean.splitOn '/').take 5 = [s0, s1, s2, s3, s4]) :
    ∃ r, clean = s0 ++ '/' :: (s1 ++ '/' :: (s2 ++ '/' :: (s3 ++ '/' :: (s4 ++ '/' :: r)))) := by
  have hsegs := List.take_append_drop 5 (clean.splitOn '/')
  have hdlen : 0 < ((clean.splitOn '/').drop 5).length := by
    rw [List.length_drop]
    omega
  obtain ⟨d, l', hd⟩ := List.exists_cons_of_ne_nil (List.ne_nil_of_length_pos hdlen)
  have hclean : clean = List.intercalate ['/'] (clean.splitOn '/') :=
    (List.intercalate_splitOn clean '/').symm
  rw [← hsegs, htake, hd] at hclean
  refine ⟨List.intercalate ['/'] (d :: l'), ?_⟩
  rw [hclean,
    show ([s0, s1, s2, s3, s4] ++ d :: l') = s0 :: s1 :: s2 :: s3 :: s4 :: d :: l' from rfl,
    intercalate_slash_cons_cons, intercalate_slash_cons_cons, intercalate_slash_cons_cons,
    intercalate_slash_cons_cons, intercalate_slash_cons_cons]

theorem parse_cleaned_eq_spec (clean : List Char) :
    parse_pr_url_cleaned clean = parsePrUrlSpec_cleaned clean := by
  cases hgh : dropLit ghBase clean with
  | some caps =>
    have hc : clean = ghBase ++ caps := (dropLit_eq_some_iff _ _ _).mp hgh
    subst hc
    simp only [parse_pr_url_cleaned, parsePrUrlSpec_cleaned, dropLit_self, splitOn_github]
    by_cases hcond : (decide (4 ≤ (caps.splitOn '/').length) &&
        ((caps.splitOn '/').getD 2 [] == segPull)) = true
    · have hc' := hcond
      rw [Bool.and_eq_true] at hc'
      have hlen4 : 4 ≤ (caps.splitOn '/').length := of_decide_eq_true hc'.1
      have hpull : (caps.splitOn '/').getD 2 [] = segPull := beq_iff_eq.mp hc'.2
      have h1 : (segHttps :: [] :: segGithubCom :: caps.splitOn '/').length ≥ 7 ∧
          (segHttps :: [] :: segGithubCom :: caps.splitOn '/').take 3 =
            [segHttps, [], segGithubCom] ∧
          (segHttps :: [] :: segGithubCom :: caps.splitOn '/').getD 5 [] = segPull := by
        refine ⟨?_, rfl, ?_⟩
        · simp only [List.length_cons]
          omega
        · show (caps.splitOn '/').getD 2 [] = segPull
          exact hpull
      rw [if_pos hcond, if_pos h1]
      have hmem : (caps.splitOn '/').getD 3 [] ∈ caps.splitOn '/' := by
        rw [List.getD_eq_getElem _ _ (by omega : 3 < (caps.splitOn '/').length)]
        exact List.getElem_mem _
      have hnos : '/' ∉ (caps.splitOn '/').getD 3 [] := no_slash_piece caps _ hmem
      rw [headD_splitOn_self _ hnos]
      rfl
    · have hdevn : graphiteTry graphiteDevBase (ghBase ++ caps) = none :=
        graphiteTry_none _ _ (dropLit_none_of _ _ (fun r =>
          append_ne_append_at ghBase graphiteDevBase 8 (by decide) (by decide)
            (by decide) caps r))
      have hcomn : graphiteTry graphiteComBase (ghBase ++ caps) = none :=
        graphiteTry_none _ _ (dropLit_none_of _ _ (fun r =>
          append_ne_append_at ghBase graphiteComBase 8 (by decide) (by decide)
            (by decide) caps r))
      have hnc1 : ¬((segHttps :: [] :: segGithubCom :: caps.splitOn '/').length ≥ 7 ∧
          (segHttps :: [] :: segGithubCom :: caps.splitOn '/').take 3 =
            [segHttps, [], segGithubCom] ∧
          (segHttps :: [] :: segGithubCom :: caps.splitOn '/').getD 5 [] = segPull) := by
        rintro ⟨hl7, -, hp⟩
        apply hcond
        rw [Bool.and_eq_true]
        constructor
        · refine decide_eq_true ?_
          simp only [List.length_cons] at hl7
          omega
        · exact beq_iff_eq.mpr hp
      have hnc2 : ¬((segHttps :: [] :: segGithubCom :: caps.splitOn '/').length ≥ 8 ∧
          (segHttps :: [] :: segGithubCom :: caps.splitOn '/').take 5 =
            [segHttps, [], segGraphiteDev, segGithub, segPr]) := by
        rintro ⟨-, ht5⟩
        rw [show ((segHttps :: [] :: segGithubCom :: caps.splitOn '/').take 5) =
          segHttps :: [] :: segGithubCom :: (caps.splitOn '/').take 2 from rfl] at ht5
        simp only [List.cons.injEq] at ht5
        exact absurd ht5.2.2.1 (by decide)
      have hnc3 : ¬((segHttps :: [] :: segGithubCom :: caps.splitOn '/').length ≥ 8 ∧
          (segHttps :: [] :: segGithubCom :: caps.splitOn '/').take 5 =
            [segHttps, [], segGraphiteCom, segGithub, segPr]) := by
        rintro ⟨-, ht5⟩
        rw [show ((segHttps :: [] :: segGithubCom :: caps.splitOn '/').take 5) =
          segHttps :: [] :: segGithubCom :: (caps.splitOn '/').take 2 from rfl] at ht5
        simp only [List.cons.injEq] at ht5
        exact absurd ht5.2.2.1 (by decide)
      rw [if_neg hcond, hdevn, hcomn, if_neg hnc1, if_neg hnc2, if_neg hnc3]
  | none =>
    cases hdev : dropLit graphiteDevBase clean with
    | some caps =>
      have hc : clean = graphiteDevBase ++ caps := (dropLit_eq_some_iff _ _ _).mp hdev
      subst hc
      have hcomn : dropLit graphiteComBase (graphiteDevBase ++ caps) = none :=
        dropLit_none_of _ _ (fun r =>
          append_ne_append_at graphiteDevBase graphiteComBase 21 (by decide) (by decide)
            (by decide) caps r)
      simp only [parse_pr_url_cleaned, parsePrUrlSpec_cleaned, hgh, splitOn_graphite_dev,
        graphiteTry, dropLit_self, hcomn]
      have hnc1 : ¬((segHttps :: [] :: segGraphiteDev :: segGithub :: segPr ::
          caps.splitOn '/').length ≥ 7 ∧
          (segHttps :: [] :: segGraphiteDev :: segGithub :: segPr ::
            caps.splitOn '/').take 3 = [segHttps, [], segGithubCom] ∧
          (segHttps :: [] :: segGraphiteDev :: segGithub :: segPr ::
            caps.splitOn '/').getD 5 [] = segPull) := by
        rintro ⟨-, ht3, -⟩
        rw [show ((segHttps :: [] :: segGraphiteDev :: segGithub :: segPr ::
          caps.splitOn '/').take 3) = [segHttps, [], segGraphiteDev] from rfl] at ht3
        simp only [List.cons.injEq] at ht3
        exact absurd ht3.2.2.1 (by decide)
      rw [if_neg hnc1]
      by_cases hP : 3 ≤ (caps.splitOn '/').length
      · have h2 : (segHttps :: [] :: segGraphiteDev :: segGithub :: segPr ::
            caps.splitOn '/').length ≥ 8 ∧
            (segHttps :: [] :: segGraphiteDev :: segGithub :: segPr ::
              caps.splitOn '/').take 5 = [segHttps, [], segGraphiteDev, segGithub, segPr] := by
          refine ⟨?_, rfl⟩
          simp only [List.length_cons]
          omega
        rw [if_pos hP, if_pos h2]
        have hmem : (caps.splitOn '/').getD 2 [] ∈ caps.splitOn '/' := by
          rw [List.getD_eq_getElem _ _ (by omega : 2 < (caps.splitOn '/').length)]
          exact List.getElem_mem _
        have hnos : '/' ∉ (caps.splitOn '/').getD 2 [] := no_slash_piece caps _ hmem
        rw [headD_splitOn_self _ hnos]
        rfl
      · have hn2 : ¬((segHttps :: [] :: segGraphiteDev :: segGithub :: segPr ::
            caps.splitOn '/').length ≥ 8 ∧
            (segHttps :: [] :: segGraphiteDev :: segGithub :: segPr ::
              caps.splitOn '/').take 5 = [segHttps, [], segGraphiteDev, segGithub, segPr]) := by
          rintro ⟨hl8, -⟩
          simp only [List.length_cons] at hl8
          omega
        have hn3 : ¬((segHttps :: [] :: segGraphiteDev :: segGithub :: segPr ::
            caps.splitOn '/').length ≥ 8 ∧
            (segHttps :: [] :: segGraphiteDev :: segGithub :: segPr ::
              caps.splitOn '/').take 5 = [segHttps, [], segGraphiteCom, segGithub, segPr]) := by
          rintro ⟨-, ht5⟩
          rw [show ((segHttps :: [] :: segGraphiteDev :: segGithub :: segPr ::
            caps.splitOn '/').take 5) = [segHttps, [], segGraphiteDev, segGithub, segPr]
            from rfl] at ht5
          simp only [List.cons.injEq] at ht5
          exact absurd ht5.2.2.1 (by decide)
        rw [if_neg hP, if_neg hn2, if_neg hn3]
    | none =>
      cases hcom : dropLit graphiteComBase clean with
      | some caps =>
        have hc : clean = graphiteComBase ++ caps := (dropLit_eq_some_iff _ _ _).mp hcom
        subst hc
        simp only [parse_pr_url_cleaned, parsePrUrlSpec_cleaned, hgh, splitOn_graphite_com,
          graphiteTry, hdev, dropLit_self]
        have hnc1 : ¬((segHttps :: [] :: segGraphiteCom :: segGithub :: segPr ::
            caps.splitOn '/').length ≥ 7 ∧
            (segHttps :: [] :: segGraphiteCom :: segGithub :: segPr ::
              caps.splitOn '/').take 3 = [segHttps, [], segGithubCom] ∧
            (segHttps :: [] :: segGraphiteCom :: segGithub :: segPr ::
              caps.splitOn '/').getD 5 [] = segPull) := by
          rintro ⟨-, ht3, -⟩
          rw [show ((segHttps :: [] :: segGraphiteCom :: segGithub :: segPr ::
            caps.splitOn '/').take 3) = [segHttps, [], segGraphiteCom] from rfl] at ht3
          simp only [List.cons.injEq] at ht3
          exact absurd ht3.2.2.1 (by decide)
        have hnc2 : ¬((segHttps :: [] :: segGraphiteCom :: segGithub :: segPr ::
            caps.splitOn '/').length ≥ 8 ∧
            (segHttps :: [] :: segGraphiteCom :: segGithub :: segPr ::
              caps.splitOn '/').take 5 = [segHttps, [], segGraphiteDev, segGithub, segPr]) := by
          rintro ⟨-, ht5⟩
          rw [show ((segHttps :: [] :: segGraphiteCom :: segGithub :: segPr ::
            caps.splitOn '/').take 5) = [segHttps, [], segGraphiteCom, segGithub, segPr]
            from rfl] at ht5
          simp only [List.cons.injEq] at ht5
          exact absurd ht5.2.2.1 (by decide)
        rw [if_neg hnc1, if_neg hnc2]
        by_cases hP : 3 ≤ (caps.splitOn '/').length
        · have h3 : (segHttps :: [] :: segGraphiteCom :: segGithub :: segPr ::
              caps.splitOn '/').length ≥ 8 ∧
              (segHttps :: [] :: segGraphiteCom :: segGithub :: segPr ::
                caps.splitOn '/').take 5 = [segHttps, [], segGraphiteCom, segGithub, segPr] := by
            refine ⟨?_, rfl⟩
            simp only [List.length_cons]
            omega
          rw [if_pos hP, if_pos h3]
          have hmem : (caps.splitOn '/').getD 2 [] ∈ caps.splitOn '/' := by
            rw [List.getD_eq_getElem _ _ (by omega : 2 < (caps.splitOn '/').length)]
            exact List.getElem_mem _
          have hnos : '/' ∉ (caps.splitOn '/').getD 2 [] := no_slash_piece caps _ hmem
          rw [headD_splitOn_self _ hnos]
          rfl
        · have hn4 : ¬((segHttps :: [] :: segGraphiteCom :: segGithub :: segPr ::
              caps.splitOn '/').length ≥ 8 ∧
              (segHttps :: [] :: segGraphiteCom :: segGithub :: segPr ::
                caps.splitOn '/').take 5 = [segHttps, [], segGraphiteCom, segGithub, segPr]) := by
            rintro ⟨hl8, -⟩
            simp only [List.length_cons] at hl8
            omega
          rw [if_neg hP, if_neg hn4]
      | none =>
        have hz1 : ¬((clean.splitOn '/').length ≥ 7 ∧
            (clean.splitOn '/').take 3 = [segHttps, [], segGithubCom] ∧
            (clean.splitOn '/').getD 5 [] = segPull) := by
          rintro ⟨hl7, ht3, -⟩
          obtain ⟨r, hr⟩ := take3_prefix clean _ _ _ (by omega) ht3
          have hpre : clean = ghBase ++ r := by rw [hr]; rfl
          rw [hpre, dropLit_self] at hgh
          cases hgh
        have hz2 : ¬((clean.splitOn '/').length ≥ 8 ∧
            (clean.splitOn '/').take 5 = [segHttps, [], segGraphiteDev, segGithub, segPr]) := by
          rintro ⟨hl8, ht5⟩
          obtain ⟨r, hr⟩ := take5_prefix clean _ _ _ _ _ (by omega) ht5
          have hpre : clean = graphiteDevBase ++ r := by rw [hr]; rfl
          rw [hpre, dropLit_self] at hdev
          cases hdev
        have hz3 : ¬((clean.splitOn '/').length ≥ 8 ∧
            (clean.splitOn '/').take 5 = [segHttps, [], segGraphiteCom, segGithub, segPr]) := by
          rintro ⟨hl8, ht5⟩
          obtain ⟨r, hr⟩ := take5_prefix clean _ _ _ _ _ (by omega) ht5
          have hpre : clean = graphiteComBase ++ r := by rw [hr]; rfl
          rw [hpre, dropLit_self] at hcom
          cases hcom
        simp only [parse_pr_url_cleaned, parsePrUrlSpec_cleaned, hgh,
          graphiteTry_none _ _ hdev, graphiteTry_none _ _ hcom]
        rw [if_neg hz1, if_neg hz2, if_neg hz3]

/-- Claim C6: for every input string the PR-URL parser first strips
everything from the first `?` onward and all trailing `/` characters
(`cleanChars`), then recognizes exactly the shapes
`https://github.com/{org}/{repo}/pull/{n}[/...]`,
`https://app.graphite.dev/github/pr/{org}/{repo}/{n}[/...]` and the `.com`
variant — formalized as the segment-pattern matcher `parsePrUrlSpec`, with
the number taken as the segment after `pull` (resp. the third Graphite
segment), which is what truncation at the first `/` yields — and returns
`none` for every other string; in particular the quoted examples hold. -/
theorem C6_parse_pr_url :
    (∀ url : String, parse_pr_url url = parsePrUrlSpec url) ∧
    parse_pr_url "https://github.com/acme/widgets/pull/42?tab=files" =
      some ("acme", "widgets", "42") ∧
    parse_pr_url "https://app.graphite.dev/github/pr/acme/widgets/42/edit" =
      some ("acme", "widgets", "42") ∧
    parse_pr_url "https://app.graphite.com/github/pr/acme/widgets/42" =
      some ("acme", "widgets", "42") ∧
    parse_pr_url "https://gitlab.com/acme/widgets/pull/42" = none ∧
    parse_pr_url "https://github.com/acme/widgets/pull/42/" =
      some ("acme", "widgets", "42") := by
  refine ⟨?_, ?_, ?_, ?_, ?_, ?_⟩
  · intro url
    rw [parse_pr_url, parsePrUrlSpec, parse_pr_url_chars, parse_cleaned_eq_spec]
  · decide
  · decide
  · decide
  · decide
  · decide
